import Mathlib

/-!
# mptp: the log-likelihood landscape plot and the core it reports on

Two parts.

* A shallow embedding of `src/svg_landscape.c` (`svg_header`, `out_svg`,
  `svg_footer`) with the declarations of `src/mptp.h` it uses, and the
  properties of the plot proved about it.
* The likelihood module, the optimizer and the sampler. Their C files are not
  among the sources; `mptp.h` declares their entry points and the records
  `rtree_t` and `dp_vector_t`. What is needed of them is modelled from the
  specification, every such definition saying so.

Conventions of the embedding

* `long` and `int` values are integers (`Int`, or `Nat` for a counter that
  starts at zero and is only incremented); every statement is about runs in
  which no signed overflow occurs, which C leaves undefined.
* In the plot a `double` is a rational number and the arithmetic on doubles
  is exact: a decimal literal such as `1.1` denotes `11/10`, and rounding is
  not modelled. Every statement that goes through a division has the
  hypothesis that makes its divisor non-zero; the variants of the coordinates
  named `_checked` track the two divisions of `out_svg` and have no value when
  the divisor is zero.
* In the likelihood module a `double` is a real number, because scores are
  logarithms.
* The stream read by `fgets` is the list of its remaining characters.
* `sscanf` belongs to the C library; what it extracts from a line is a
  parameter of `out_svg`.
-/

namespace Mptp

/-! ## Constants of `mptp.h` used by the core -/

/-- The constant `#define EVENT_SPECIATION 0`. -/
def EVENT_SPECIATION : Int := 0

/-- The constant `#define EVENT_COALESCENT 1`. -/
def EVENT_COALESCENT : Int := 1

/-! ## Likelihood module

`likelihood.c` is not among the embedded sources; `mptp.h` only declares
`double loglikelihood(long edge_count, double edgelen_sum)`. In this part a
`double` is a real number, because the score is a logarithm. -/

/-- Log-likelihood of a sample of branch lengths under the exponential
distribution of the given rate: the sum of the logarithms of the densities
`rate * exp(-rate * x)`. -/
noncomputable def exp_logl_sample (rate : ℝ) (lengths : List ℝ) : ℝ :=
  (lengths.map fun x => Real.log (rate * Real.exp (-rate * x))).sum

/-- The same log-likelihood as a function of the number of branch lengths and
of their sum only. -/
noncomputable def exp_logl (rate : ℝ) (edge_count : ℝ) (edgelen_sum : ℝ) : ℝ :=
  edge_count * Real.log rate - rate * edgelen_sum

/-- Modelled from the spec: `loglikelihood` of `likelihood.c`, of which only
the declaration is available. It is the log-likelihood of `edge_count`
exponentially distributed branch lengths summing to `edgelen_sum` under the
rate `edge_count / edgelen_sum`; an empty group contributes 0; there is no
result (`none`, the failure of the spec) when `edgelen_sum ≤ 0` while
`edge_count > 0`. A negative `edge_count` is not a count and has no result
either. -/
noncomputable def loglikelihood (edge_count : Int) (edgelen_sum : ℝ) : Option ℝ :=
  if edge_count = 0 then some 0
  else if edge_count < 0 ∨ edgelen_sum ≤ 0 then none
  else some (exp_logl ((edge_count : ℝ) / edgelen_sum) (edge_count : ℝ) edgelen_sum)

/-! ## Tree model, delimitations and the optimizer

`dp.c` is not among the embedded sources; `mptp.h` declares `dp_ptp` and the
records `rtree_t` and `dp_vector_t`. -/

/-- A node of the rooted binary tree `rtree_t` of `mptp.h` with the subtree
below it: the fields `length` (length of the edge to the parent) and `event`
(process of that edge), and for an inner node `left` and `right`. The other
fields of `rtree_t` are caches and bookkeeping. -/
inductive RTree where
  | leaf (length : ℝ) (event : Int)
  | inner (length : ℝ) (event : Int) (left right : RTree)

/-- The field `length` of a node. -/
def RTree.length : RTree → ℝ
  | .leaf len _ => len
  | .inner len _ _ _ => len

/-- The field `event` of a node. -/
def RTree.event : RTree → Int
  | .leaf _ ev => ev
  | .inner _ ev _ _ => ev

/-- Modelled from the spec: the state of one chain of `multichain`: the
process tag of every node (indexed by the slot of the node), the current
log-likelihood and the step counter. -/
structure ChainState where
  events : List Int
  logl : ℝ
  steps : Nat

/-- Modelled from the spec: the proposal of `multichain`, flipping the
process tag of the node in slot `slot` between speciation and coalescent. -/
def flip_event (events : List Int) (slot : Nat) : List Int :=
  events.modify (fun e => if e = EVENT_SPECIATION then EVENT_COALESCENT else EVENT_SPECIATION) slot

/-- Modelled from the spec: the acceptance rule of `multichain` for the
log-likelihood difference `delta` between the proposed and the current
delimitation, `u` being the draw of the chain's generator, uniform in
`[0, 1)`: accept if `delta ≥ 0`, otherwise with probability `exp(delta)`,
that is when `u < exp(delta)`. -/
def accepts (delta u : ℝ) : Prop :=
  0 ≤ delta ∨ u < Real.exp delta

/-- Modelled from the spec: one step of a chain of `multichain`. The tag in
`slot` is flipped, the proposal is scored by `score`, and it replaces the
current delimitation if it is accepted; the step counter advances in both
cases. -/
noncomputable def mcmc_step (score : List Int → ℝ) (s : ChainState) (slot : Nat) (u : ℝ) :
    ChainState :=
  open Classical in
  if accepts (score (flip_event s.events slot) - s.logl) u then
    { events := flip_event s.events slot
      logl := score (flip_event s.events slot)
      steps := s.steps + 1 }
  else
    { events := s.events
      logl := s.logl
      steps := s.steps + 1 }

/-- Modelled from the spec: the per-node tally `speciation_count` of
`multichain` after all chains finished: the number of recorded samples,
over all chains, in which the node in slot `slot` was tagged speciation. A
recorded sample is the list of the process tags of all nodes. -/
def speciation_count (chains : List (List (List Int))) (slot : Nat) : Nat :=
  (chains.flatten.filter fun sample => sample[slot]? = some EVENT_SPECIATION).length

/-- Modelled from the spec: the number of samples recorded by all chains. -/
def recorded_samples (chains : List (List (List Int))) : Nat :=
  chains.flatten.length

/-- Modelled from the spec: the aggregation of `multichain`, giving the field
`support` of the node in slot `slot`: the fraction of the recorded samples in
which the node was tagged speciation. There is no value when nothing was
recorded. -/
def support (chains : List (List (List Int))) (slot : Nat) : Option ℚ :=
  if recorded_samples chains = 0 then none
  else some ((speciation_count chains slot : ℚ) / (recorded_samples chains : ℚ))

/-! ## Options of `mptp.h` read by the landscape plot -/

/-- The option variables `opt_bayes_sample`, `opt_bayes_runs` and
`opt_bayes_burnin` of `mptp.h` (all of type `long`). -/
structure Options where
  opt_bayes_sample : Int
  opt_bayes_runs : Int
  opt_bayes_burnin : Int
  deriving Repr, DecidableEq

/-! ## File-scope constants of `svg_landscape.c` -/

/-- Size of the line buffer, `#define LINEALLOC 2048`. -/
def LINEALLOC : Nat := 2048

/-- The constant `static double originx = 133`. -/
def originx : ℚ := 133

/-- The constant `static int xtics = 10`. -/
def xtics : Nat := 10

/-- The constant `static long canvas_x1 = 130`. -/
def canvas_x1 : Int := 130

/-- The constant `static long canvas_x2 = 730`. -/
def canvas_x2 : Int := 730

/-- The constant `static long canvas_y1 = 10`. -/
def canvas_y1 : Int := 10

/-- The constant `static long canvas_y2 = 360`. -/
def canvas_y2 : Int := 360

/-- The constant `static double radius = 2`. -/
def radius : ℚ := 2

/-! ## C library behaviour used by `out_svg` -/

/-- The newline character. -/
def newline : Char := Char.ofNat 10

/-- Characters stored by one `fgets` call that may still store `n`
characters: reading stops after a newline, at end of file, or when the
buffer is full. Returns the stored characters and the rest of the stream. -/
def fgetsAux : Nat → List Char → List Char × List Char
  | 0, s => ([], s)
  | _ + 1, [] => ([], [])
  | n + 1, c :: s =>
    if c = newline then ([c], s)
    else (c :: (fgetsAux n s).1, (fgetsAux n s).2)

/-- The call `fgets(line, size, fp)`: `none` (the null pointer) at end of
file, otherwise the line stored (at most `size - 1` characters) and the rest
of the stream. -/
def fgets (size : Nat) (fp : List Char) : Option (List Char × List Char) :=
  match fp with
  | [] => none
  | _ :: _ => some (fgetsAux (size - 1) fp)

/-- The conversion `(long) d` of a double: truncation toward zero. -/
def double_to_long (d : ℚ) : Int :=
  if 0 ≤ d then ⌊d⌋ else ⌈d⌉

/-! ## `svg_header` -/

/-- One `<line x1 x2 y1 y2>` element. -/
structure Line where
  x1 : Int
  x2 : Int
  y1 : Int
  y2 : Int
  deriving Repr, DecidableEq

/-- The vertical grid lines printed by `svg_header` (group `xGrid`), in the
order printed. -/
def svg_header_xGrid : List Line :=
  [⟨130, 130, 10, 380⟩, ⟨190, 190, 10, 380⟩, ⟨250, 250, 10, 380⟩,
   ⟨310, 310, 10, 380⟩, ⟨370, 370, 10, 380⟩, ⟨430, 430, 10, 380⟩,
   ⟨490, 490, 10, 380⟩, ⟨550, 550, 10, 380⟩, ⟨610, 610, 10, 380⟩,
   ⟨670, 670, 10, 380⟩, ⟨730, 730, 10, 380⟩]

/-- The horizontal grid lines printed by `svg_header` (group `yGrid`), in the
order printed (top of the canvas first). -/
def svg_header_yGrid : List Line :=
  [⟨103, 730, 10, 10⟩, ⟨103, 730, 68, 68⟩, ⟨103, 730, 126, 126⟩,
   ⟨103, 730, 185, 185⟩, ⟨103, 730, 243, 243⟩, ⟨103, 730, 301, 301⟩,
   ⟨103, 730, 360, 360⟩]

/-! ## `out_svg` -/

/-- One `<circle cx cy r fill stroke>` element. -/
structure Circle where
  cx : ℚ
  cy : ℚ
  r : ℚ
  fill : String
  stroke : String
  deriving Repr, DecidableEq

/-- The local `scale = (max_logl - min_logl) * 1.1` of `out_svg` and
`svg_footer`. -/
def scale (min_logl max_logl : ℚ) : ℚ :=
  (max_logl - min_logl) * (11 / 10)

/-- The x coordinate computed by `out_svg` for loop counter `i`:
`((i*opt_bayes_sample)/(double)(opt_bayes_runs-opt_bayes_burnin)) *
(canvas_x2 - canvas_x1) + canvas_x1`. The product and the difference are
integer operations; the quotient is a division of doubles. -/
def out_svg_x (o : Options) (i : Int) : ℚ :=
  (((i * o.opt_bayes_sample : Int) : ℚ) /
      ((o.opt_bayes_runs - o.opt_bayes_burnin : Int) : ℚ)) *
    ((canvas_x2 - canvas_x1 : Int) : ℚ) + (canvas_x1 : ℚ)

/-- The y coordinate computed by `out_svg` for a row whose first field is
`logl`: `(1 - (logl-min_logl)/scale) * (canvas_y2-canvas_y1) + canvas_y1`. -/
def out_svg_y (min_logl max_logl logl : ℚ) : ℚ :=
  (1 - (logl - min_logl) / scale min_logl max_logl) *
    ((canvas_y2 - canvas_y1 : Int) : ℚ) + (canvas_y1 : ℚ)

/-- The point printed by one iteration of the loop of `out_svg`, for counter
`i` and the buffer contents `line`. -/
def out_svg_point (o : Options) (sscanf : List Char → ℚ × Int)
    (min_logl max_logl : ℚ) (i : Nat) (line : List Char) : Circle :=
  { cx := out_svg_x o (i : Int)
    cy := out_svg_y min_logl max_logl (sscanf line).1
    r := radius
    fill := "#000000"
    stroke := "#000000" }

/-- The loop `while (fgets(line,LINEALLOC,fp)) { ...; ++i; }` of `out_svg`,
run for at most `fuel` iterations from counter `i` on the stream `fp`. -/
def out_svg_loop (o : Options) (sscanf : List Char → ℚ × Int)
    (min_logl max_logl : ℚ) : Nat → Nat → List Char → List Circle
  | 0, _, _ => []
  | fuel + 1, i, fp =>
    match fgets LINEALLOC fp with
    | none => []
    | some (line, rest) =>
      out_svg_point o sscanf min_logl max_logl i line ::
        out_svg_loop o sscanf min_logl max_logl fuel (i + 1) rest

/-- The points `out_svg` prints for the contents `fp` of the `.log` file, in
the order printed. Every iteration consumes at least one character, so
`fp.length` iterations always reach the end of the file. -/
def out_svg (o : Options) (sscanf : List Char → ℚ × Int)
    (min_logl max_logl : ℚ) (fp : List Char) : List Circle :=
  out_svg_loop o sscanf min_logl max_logl fp.length 0 fp

/-! ## `svg_footer` -/

/-- One x-axis `<text transform="translate(tx,400)rotate(270)">` label. -/
structure XLabel where
  tx : ℚ
  value : Int
  deriving Repr, DecidableEq

/-- One y-axis `<text x y>` label. -/
structure YLabel where
  x : Int
  y : Int
  value : ℚ
  deriving Repr, DecidableEq

/-- The x-axis labels printed by `svg_footer`, in the order printed: the
burn-in at `originx`, then one label per iteration `i = 0 .. xtics-1`. -/
def svg_footer_xlabels (o : Options) : List XLabel :=
  ⟨originx, o.opt_bayes_burnin⟩ ::
    (List.range xtics).map fun i : Nat =>
      ⟨originx + (((i : Int) + 1 : Int) : ℚ) *
          (((canvas_x2 - canvas_x1 : Int) : ℚ) / (xtics : ℚ)),
        double_to_long ((((i : Int) + 1 : Int) : ℚ) *
          (((o.opt_bayes_runs - o.opt_bayes_burnin : Int) : ℚ) / (xtics : ℚ))) +
          o.opt_bayes_burnin⟩

/-- The y-axis labels printed by `svg_footer`, in the order printed (top of
the canvas first). -/
def svg_footer_ylabels (min_logl max_logl : ℚ) : List YLabel :=
  [⟨100, 15, min_logl + scale min_logl max_logl⟩,
   ⟨100, 73, min_logl + 5 * scale min_logl max_logl / 6⟩,
   ⟨100, 131, min_logl + 4 * scale min_logl max_logl / 6⟩,
   ⟨100, 190, min_logl + 3 * scale min_logl max_logl / 6⟩,
   ⟨100, 248, min_logl + 2 * scale min_logl max_logl / 6⟩,
   ⟨100, 307, min_logl + scale min_logl max_logl / 6⟩,
   ⟨100, 365, min_logl⟩]

/-! ## The two divisions of `out_svg`, and `svg_landscape` -/

/-- The quotient `a / b` of two doubles when it is a number. With a zero
divisor the division of C yields an infinity or a NaN, which no rational
stands for: the result is `none`. -/
def double_div (a b : ℚ) : Option ℚ :=
  if b = 0 then none else some (a / b)

/-- The divisor `(double)(opt_bayes_runs-opt_bayes_burnin)` of the x
coordinate in `out_svg`. -/
def out_svg_x_divisor (o : Options) : ℚ :=
  ((o.opt_bayes_runs - o.opt_bayes_burnin : Int) : ℚ)

/-- The x coordinate computed by `out_svg` for loop counter `i`, with its
division tracked: there is no number when the divisor is zero. -/
def out_svg_x_checked (o : Options) (i : Int) : Option ℚ :=
  (double_div ((i * o.opt_bayes_sample : Int) : ℚ) (out_svg_x_divisor o)).map fun q =>
    q * ((canvas_x2 - canvas_x1 : Int) : ℚ) + (canvas_x1 : ℚ)

/-- The y coordinate computed by `out_svg` for a row whose first field is
`logl`, with its division by `scale` tracked. -/
def out_svg_y_checked (min_logl max_logl logl : ℚ) : Option ℚ :=
  (double_div (logl - min_logl) (scale min_logl max_logl)).map fun q =>
    (1 - q) * ((canvas_y2 - canvas_y1 : Int) : ℚ) + (canvas_y1 : ℚ)

/-- One `<circle>` element whose coordinates may fail to be numbers. -/
structure CheckedCircle where
  cx : Option ℚ
  cy : Option ℚ
  r : ℚ
  fill : String
  stroke : String
  deriving Repr, DecidableEq

/-- A circle whose two coordinates are numbers. -/
def Circle.checked (c : Circle) : CheckedCircle :=
  { cx := some c.cx, cy := some c.cy, r := c.r, fill := c.fill, stroke := c.stroke }

/-- The point printed by one iteration of the loop of `out_svg`, divisions
tracked. The body of the loop computes `x` and `y` and prints them; it tests
nothing. -/
def out_svg_point_checked (o : Options) (sscanf : List Char → ℚ × Int)
    (min_logl max_logl : ℚ) (i : Nat) (line : List Char) : CheckedCircle :=
  { cx := out_svg_x_checked o (i : Int)
    cy := out_svg_y_checked min_logl max_logl (sscanf line).1
    r := radius
    fill := "#000000"
    stroke := "#000000" }

/-- The loop of `out_svg`, divisions tracked, run for at most `fuel`
iterations from counter `i` on the stream `fp`. -/
def out_svg_loop_checked (o : Options) (sscanf : List Char → ℚ × Int)
    (min_logl max_logl : ℚ) : Nat → Nat → List Char → List CheckedCircle
  | 0, _, _ => []
  | fuel + 1, i, fp =>
    match fgets LINEALLOC fp with
    | none => []
    | some (line, rest) =>
      out_svg_point_checked o sscanf min_logl max_logl i line ::
        out_svg_loop_checked o sscanf min_logl max_logl fuel (i + 1) rest

/-- The points `out_svg` prints for the contents `fp` of the `.log` file,
divisions tracked. -/
def out_svg_checked (o : Options) (sscanf : List Char → ℚ × Int)
    (min_logl max_logl : ℚ) (fp : List Char) : List CheckedCircle :=
  out_svg_loop_checked o sscanf min_logl max_logl fp.length 0 fp

/-- What `svg_landscape` writes to the `.logl.svg` file. -/
structure Landscape where
  xGrid : List Line
  yGrid : List Line
  points : List CheckedCircle
  xlabels : List XLabel
  ylabels : List YLabel
  deriving Repr, DecidableEq

/-- The function `svg_landscape(bayes_min_logl, bayes_max_logl)`: it calls
`svg_header`, `out_svg` and `svg_footer` in turn, handing its two arguments
to the last two as they are. `fp` is the contents of the `.log` file. -/
def svg_landscape (o : Options) (sscanf : List Char → ℚ × Int) (fp : List Char)
    (bayes_min_logl bayes_max_logl : ℚ) : Landscape :=
  { xGrid := svg_header_xGrid
    yGrid := svg_header_yGrid
    points := out_svg_checked o sscanf bayes_min_logl bayes_max_logl fp
    xlabels := svg_footer_xlabels o
    ylabels := svg_footer_ylabels bayes_min_logl bayes_max_logl }

/-! ## Rows of the trace file -/

/-- The rows of a text file: maximal runs of characters ending with a
newline, plus the unterminated run at the end of the file if there is one.
This is the notion of row of the trace format; it does not depend on any
buffer size. -/
def rows : List Char → List (List Char)
  | [] => []
  | c :: s =>
    if c = newline then [c] :: rows s
    else
      match rows s with
      | [] => [[c]]
      | r :: rs => (c :: r) :: rs

/-- A trace file of three rows, used to instantiate the statements about
`out_svg`. -/
def trace_example : List Char :=
  "-7.25,3\n-9.5,2\n-12.0,1\n".toList

/-- What `sscanf` extracts from the three rows of `trace_example`: the
log-likelihood and the species count written in the row. -/
def sscanf_example (line : List Char) : ℚ × Int :=
  if line = "-7.25,3\n".toList then (-29 / 4, 3)
  else if line = "-9.5,2\n".toList then (-19 / 2, 2)
  else if line = "-12.0,1\n".toList then (-12, 1)
  else (0, 0)

/-- A trace file of 100 rows, as recorded by one chain with burn-in 100, 1100
steps and sample interval 10. -/
def trace_hundred : List Char :=
  (List.replicate 100 "-7.25,3\n".toList).flatten

/-! # Properties -/

/-! ## Scores of delimitations -/

/-- The log-likelihood of a sample only depends on its size and its sum. -/
theorem exp_logl_sample_eq (rate : ℝ) (hr : 0 < rate) (lengths : List ℝ) :
    exp_logl_sample rate lengths = exp_logl rate lengths.length lengths.sum := by
  induction lengths with
  | nil => simp [exp_logl_sample, exp_logl]
  | cons x xs ih =>
    simp only [exp_logl_sample, exp_logl, List.map_cons, List.sum_cons, List.length_cons] at ih ⊢
    rw [ih, Real.log_mul hr.ne' (Real.exp_pos _).ne', Real.log_exp]
    push_cast
    ring

/-- The rate `edge_count / edgelen_sum` maximises the log-likelihood. -/
theorem exp_logl_le_ml {n S : ℝ} (hn : 0 < n) (hS : 0 < S) {rate : ℝ} (hr : 0 < rate) :
    exp_logl rate n S ≤ exp_logl (n / S) n S := by
  have hq : 0 < rate * S / n := by positivity
  have h := Real.log_le_sub_one_of_pos hq
  have e : Real.log (rate * S / n) = Real.log rate - Real.log (n / S) := by
    rw [show rate * S / n = rate / (n / S) by field_simp]
    exact Real.log_div hr.ne' (by positivity)
  rw [e] at h
  have h2 := mul_le_mul_of_nonneg_left h hn.le
  have e2 : n * (rate * S / n - 1) = rate * S - n := by field_simp
  have e3 : n / S * S = n := by field_simp
  simp only [exp_logl]
  rw [e3]
  nlinarith

/-- C3: `loglikelihood(edge_count, edgelen_sum)` is the exponential
log-likelihood at the maximum-likelihood rate `edge_count / edgelen_sum`,
that is `edge_count * (ln(edge_count / edgelen_sum) - 1)`, for every
`edge_count > 0` and `edgelen_sum > 0` (no rate gives a larger value), and it
is 0 when `edge_count = 0`. -/
theorem loglikelihood_at_ml_rate (edge_count : Int) (edgelen_sum : ℝ)
    (hn : 0 < edge_count) (hS : 0 < edgelen_sum) :
    loglikelihood edge_count edgelen_sum =
        some ((edge_count : ℝ) * (Real.log ((edge_count : ℝ) / edgelen_sum) - 1)) ∧
      loglikelihood edge_count edgelen_sum =
        some (exp_logl ((edge_count : ℝ) / edgelen_sum) (edge_count : ℝ) edgelen_sum) ∧
      (∀ rate : ℝ, 0 < rate →
        exp_logl rate (edge_count : ℝ) edgelen_sum ≤
          exp_logl ((edge_count : ℝ) / edgelen_sum) (edge_count : ℝ) edgelen_sum) ∧
      (∀ s : ℝ, loglikelihood 0 s = some 0) := by
  have hn' : (0 : ℝ) < (edge_count : ℝ) := by exact_mod_cast hn
  have hval : loglikelihood edge_count edgelen_sum =
      some (exp_logl ((edge_count : ℝ) / edgelen_sum) (edge_count : ℝ) edgelen_sum) := by
    unfold loglikelihood
    rw [if_neg hn.ne', if_neg]
    rintro (h | h)
    · exact absurd h (not_lt.2 hn.le)
    · exact absurd h (not_le.2 hS)
  refine ⟨?_, hval, fun rate hr => exp_logl_le_ml hn' hS hr, fun s => by simp [loglikelihood]⟩
  rw [hval]
  congr 1
  simp only [exp_logl]
  have : (edge_count : ℝ) / edgelen_sum * edgelen_sum = (edge_count : ℝ) := by field_simp
  rw [this]
  ring

/-- Instance of `loglikelihood_at_ml_rate`: three edges of total length 2. -/
theorem loglikelihood_at_ml_rate_witness :
    (0 : Int) < 3 ∧ (0 : ℝ) < 2 ∧
      loglikelihood 3 2 = some (((3 : Int) : ℝ) * (Real.log (((3 : Int) : ℝ) / 2) - 1)) :=
  ⟨by decide, by norm_num, (loglikelihood_at_ml_rate 3 2 (by decide) (by norm_num)).1⟩

/-! ## MCMC sampler -/

/-- The draws in `[0, 1)` that accept a proposal of log-likelihood
difference `delta < 0` are those below `exp(delta)`. -/
theorem accepts_draws_of_neg {delta : ℝ} (h : delta < 0) :
    {u : ℝ | u ∈ Set.Ico (0 : ℝ) 1 ∧ accepts delta u} = Set.Ico 0 (Real.exp delta) := by
  have h1 : Real.exp delta < 1 := by
    rw [← Real.exp_zero]; exact Real.exp_lt_exp.2 h
  ext u
  simp only [accepts, Set.mem_setOf_eq, Set.mem_Ico]
  constructor
  · rintro ⟨⟨h0, _⟩, h2 | h2⟩
    · exact absurd h (not_lt.2 h2)
    · exact ⟨h0, h2⟩
  · rintro ⟨h0, h2⟩
    exact ⟨⟨h0, lt_trans h2 h1⟩, Or.inr h2⟩

/-- C4: in one MCMC step with log-likelihood difference `D` between the
proposed and the current delimitation, the proposal is accepted for every
draw when `D ≥ 0`; when `D < 0` it is accepted exactly for the draws below
`exp(D)`, a set of draws of probability `exp(D)`; a rejected proposal leaves
the delimitation and the score of the chain unchanged; and the step counter
advances by one in every case. -/
theorem mcmc_step_metropolis (score : List Int → ℝ) (s : ChainState) (slot : Nat) :
    (0 ≤ score (flip_event s.events slot) - s.logl → ∀ u : ℝ,
        accepts (score (flip_event s.events slot) - s.logl) u ∧
          (mcmc_step score s slot u).events = flip_event s.events slot ∧
          (mcmc_step score s slot u).logl = score (flip_event s.events slot)) ∧
      (score (flip_event s.events slot) - s.logl < 0 →
        (∀ u : ℝ, accepts (score (flip_event s.events slot) - s.logl) u ↔
          u < Real.exp (score (flip_event s.events slot) - s.logl)) ∧
        MeasureTheory.volume {u : ℝ | u ∈ Set.Ico (0 : ℝ) 1 ∧
            accepts (score (flip_event s.events slot) - s.logl) u} =
          ENNReal.ofReal (Real.exp (score (flip_event s.events slot) - s.logl))) ∧
      (∀ u : ℝ, ¬ accepts (score (flip_event s.events slot) - s.logl) u →
        (mcmc_step score s slot u).events = s.events ∧
          (mcmc_step score s slot u).logl = s.logl) ∧
      (∀ u : ℝ, (mcmc_step score s slot u).steps = s.steps + 1) := by
  refine ⟨?_, ?_, ?_, ?_⟩
  · intro h u
    have ha : accepts (score (flip_event s.events slot) - s.logl) u := Or.inl h
    simp [mcmc_step, ha]
  · intro h
    refine ⟨fun u => ?_, ?_⟩
    · simp only [accepts]
      constructor
      · rintro (h2 | h2)
        · exact absurd h (not_lt.2 h2)
        · exact h2
      · exact Or.inr
    · rw [accepts_draws_of_neg h, Real.volume_Ico, sub_zero]
  · intro u hrej
    simp [mcmc_step, hrej]
  · intro u
    unfold mcmc_step
    split_ifs <;> rfl

/-- Instance of `mcmc_step_metropolis`: a chain at log-likelihood -3 whose
proposal scores -2 accepts it for every draw; step 5 becomes step 6. -/
theorem mcmc_step_metropolis_witness :
    (0 ≤ (fun _ => (-2 : ℝ)) (flip_event [1, 1, 0] 2) - (-3 : ℝ)) ∧
      ∀ u : ℝ, (mcmc_step (fun _ => (-2 : ℝ)) ⟨[1, 1, 0], -3, 5⟩ 2 u).events =
        flip_event [1, 1, 0] 2 :=
  ⟨by norm_num, fun u =>
    ((mcmc_step_metropolis (fun _ => (-2 : ℝ)) ⟨[1, 1, 0], -3, 5⟩ 2).1
      (by norm_num) u).2.1⟩

/-! ## Aggregation of the support values -/

/-- C5: after aggregation the support of every node (the number of recorded
samples in which it was tagged speciation, divided by the number of recorded
samples of all chains) lies in `[0, 1]`; it has a value as soon as one sample
was recorded. -/
theorem support_in_unit_interval (chains : List (List (List Int))) (slot : Nat) :
    (0 < recorded_samples chains → ∃ v : ℚ, support chains slot = some v) ∧
      ∀ v : ℚ, support chains slot = some v → 0 ≤ v ∧ v ≤ 1 := by
  constructor
  · intro h
    exact ⟨_, by rw [support, if_neg h.ne']⟩
  · intro v hv
    unfold support at hv
    split_ifs at hv with h0
    have hpos : (0 : ℚ) < (recorded_samples chains : ℚ) := by
      exact_mod_cast Nat.pos_of_ne_zero h0
    have hle : (speciation_count chains slot : ℚ) ≤ (recorded_samples chains : ℚ) := by
      have : speciation_count chains slot ≤ recorded_samples chains :=
        List.length_filter_le _ _
      exact_mod_cast this
    obtain rfl := Option.some.inj hv
    exact ⟨div_nonneg (Nat.cast_nonneg _) hpos.le, (div_le_one hpos).2 hle⟩

/-- Instance of `support_in_unit_interval`: two chains with two recorded
samples each over three nodes; the node in slot 1 has support 3/4. -/
theorem support_in_unit_interval_witness :
    0 < recorded_samples [[[1, 0, 1], [1, 0, 0]], [[1, 1, 1], [1, 0, 1]]] ∧
      ∃ v : ℚ, support [[[1, 0, 1], [1, 0, 0]], [[1, 1, 1], [1, 0, 1]]] 1 = some v :=
  ⟨by decide,
    (support_in_unit_interval [[[1, 0, 1], [1, 0, 0]], [[1, 1, 1], [1, 0, 1]]] 1).1
      (by decide)⟩


/-! ## Reading the trace file line by line -/

theorem rows_eq_nil_iff (s : List Char) : rows s = [] ↔ s = [] := by
  cases s with
  | nil => simp [rows]
  | cons c s =>
    simp only [rows]
    split_ifs
    · simp
    · cases rows s <;> simp

theorem fgetsAux_nil (n : Nat) : fgetsAux n [] = ([], []) := by
  cases n <;> rfl

/-- What `fgets` leaves in the stream is never longer than the stream. -/
theorem fgetsAux_rest_le (n : Nat) (s : List Char) :
    (fgetsAux n s).2.length ≤ s.length := by
  induction n generalizing s with
  | zero => simp [fgetsAux]
  | succ n ih =>
    cases s with
    | nil => simp [fgetsAux]
    | cons c s =>
      simp only [fgetsAux]
      split_ifs
      · simp
      · exact le_trans (ih s) (Nat.le_succ _)

/-- A call of `fgets` with room for one character consumes at least one
character of a non-empty stream. -/
theorem fgetsAux_rest_lt (n : Nat) (c : Char) (s : List Char) :
    (fgetsAux (n + 1) (c :: s)).2.length < (c :: s).length := by
  simp only [fgetsAux]
  split_ifs
  · simp
  · exact Nat.lt_succ_of_le (fgetsAux_rest_le n s)

/-- The loop of `out_svg` terminates: any number of iterations that is at
least the length of the stream gives the same points. -/
theorem out_svg_loop_enough_fuel (o : Options) (sscanf : List Char → ℚ × Int)
    (min_logl max_logl : ℚ) :
    ∀ (fuel fuel2 i : Nat) (fp : List Char), fp.length ≤ fuel → fp.length ≤ fuel2 →
      out_svg_loop o sscanf min_logl max_logl fuel i fp =
        out_svg_loop o sscanf min_logl max_logl fuel2 i fp := by
  intro fuel
  induction fuel with
  | zero =>
    intro fuel2 i fp h1 _
    have : fp = [] := List.length_eq_zero.1 (Nat.le_zero.1 h1)
    subst this
    cases fuel2 <;> simp [out_svg_loop, fgets]
  | succ fuel ih =>
    intro fuel2 i fp h1 h2
    cases fp with
    | nil => cases fuel2 <;> simp [out_svg_loop, fgets]
    | cons c s =>
      cases fuel2 with
      | zero => simp at h2
      | succ fuel2 =>
        have hlt := fgetsAux_rest_lt (LINEALLOC - 1 - 1) c s
        rw [show LINEALLOC - 1 - 1 + 1 = LINEALLOC - 1 from rfl] at hlt
        simp only [out_svg_loop, fgets]
        congr 1
        apply ih
        · simp only [List.length_cons] at h1 hlt; omega
        · simp only [List.length_cons] at h2 hlt; omega

/-- A row that fits the buffer is what one `fgets` call stores, and the
rows of the rest of the stream are the remaining rows. -/
theorem fgetsAux_of_rows (s : List Char) :
    ∀ (n : Nat) (r : List Char) (rs : List (List Char)),
      rows s = r :: rs → r.length ≤ n →
        fgetsAux n s = (r, s.drop r.length) ∧ rows (s.drop r.length) = rs ∧
          0 < r.length := by
  induction s with
  | nil => intro n r rs h; simp [rows] at h
  | cons c s ih =>
    intro n r rs h hn
    simp only [rows] at h
    by_cases hc : c = newline
    · rw [if_pos hc] at h
      obtain ⟨rfl, rfl⟩ := List.cons.inj h
      obtain ⟨m, rfl⟩ : ∃ m, n = m + 1 := ⟨n - 1, by simp at hn; omega⟩
      simp [fgetsAux, hc]
    · rw [if_neg hc] at h
      cases hrs : rows s with
      | nil =>
        rw [hrs] at h
        obtain ⟨rfl, rfl⟩ := List.cons.inj h
        have hs : s = [] := (rows_eq_nil_iff s).1 hrs
        subst hs
        obtain ⟨m, rfl⟩ : ∃ m, n = m + 1 := ⟨n - 1, by simp at hn; omega⟩
        simp [fgetsAux, hc, fgetsAux_nil, rows]
      | cons r' rs' =>
        rw [hrs] at h
        obtain ⟨rfl, rfl⟩ := List.cons.inj h
        obtain ⟨m, rfl⟩ : ∃ m, n = m + 1 := ⟨n - 1, by simp at hn; omega⟩
        have hm : r'.length ≤ m := by simp at hn; omega
        obtain ⟨h1, h2, _⟩ := ih m r' rs' hrs hm
        simp [fgetsAux, hc, h1, h2]

/-- When every row fits the line buffer, the loop of `out_svg` prints one
point per row, numbering the rows from the value of the counter. -/
theorem out_svg_loop_rows (o : Options) (sscanf : List Char → ℚ × Int)
    (min_logl max_logl : ℚ) :
    ∀ (fuel i : Nat) (fp : List Char), fp.length ≤ fuel →
      (∀ r ∈ rows fp, r.length < LINEALLOC) →
        out_svg_loop o sscanf min_logl max_logl fuel i fp =
          ((rows fp).enumFrom i).map
            fun p => out_svg_point o sscanf min_logl max_logl p.1 p.2 := by
  intro fuel
  induction fuel with
  | zero =>
    intro i fp hlen _
    have : fp = [] := List.length_eq_zero.1 (Nat.le_zero.1 hlen)
    subst this
    simp [out_svg_loop, rows]
  | succ fuel ih =>
    intro i fp hlen hfit
    cases fp with
    | nil => simp [out_svg_loop, fgets, rows]
    | cons c s =>
      cases hrs : rows (c :: s) with
      | nil => exact absurd ((rows_eq_nil_iff _).1 hrs) (by simp)
      | cons r rs =>
        have hr : r.length ≤ LINEALLOC - 1 := by
          have := hfit r (by rw [hrs]; exact List.mem_cons_self _ _)
          omega
        obtain ⟨h1, h2, h3⟩ := fgetsAux_of_rows (c :: s) (LINEALLOC - 1) r rs hrs hr
        have hlen2 : ((c :: s).drop r.length).length ≤ fuel := by
          rw [List.length_drop]; omega
        have hfit2 : ∀ r' ∈ rows ((c :: s).drop r.length), r'.length < LINEALLOC := by
          intro r' hr'
          rw [h2] at hr'
          exact hfit r' (by rw [hrs]; exact List.mem_cons_of_mem _ hr')
        have := ih (i + 1) _ hlen2 hfit2
        rw [h2] at this
        simp only [out_svg_loop, fgets, h1, List.enumFrom_cons, List.map_cons, this]

/-- The points of `out_svg` on a file whose rows fit the line buffer. -/
theorem out_svg_eq_rows (o : Options) (sscanf : List Char → ℚ × Int)
    (min_logl max_logl : ℚ) (fp : List Char)
    (hfit : ∀ r ∈ rows fp, r.length < LINEALLOC) :
    out_svg o sscanf min_logl max_logl fp =
      ((rows fp).enumFrom 0).map
        fun p => out_svg_point o sscanf min_logl max_logl p.1 p.2 :=
  out_svg_loop_rows o sscanf min_logl max_logl fp.length 0 fp (le_refl _) hfit

/-- The counter of the loop of `out_svg` is the position of the point in the
output: the point printed at position `j` has the x coordinate of counter
`i + j`, whatever the lines look like. -/
theorem out_svg_loop_cx (o : Options) (sscanf : List Char → ℚ × Int)
    (min_logl max_logl : ℚ) :
    ∀ (fuel i : Nat) (fp : List Char) (j : Nat) (c : Circle),
      (out_svg_loop o sscanf min_logl max_logl fuel i fp)[j]? = some c →
        c.cx = out_svg_x o ((i + j : Nat) : Int) ∧
          ∃ line, c.cy = out_svg_y min_logl max_logl (sscanf line).1 := by
  intro fuel
  induction fuel with
  | zero => intro i fp j c h; simp [out_svg_loop] at h
  | succ fuel ih =>
    intro i fp j c h
    cases fp with
    | nil => simp [out_svg_loop, fgets] at h
    | cons a s =>
      simp only [out_svg_loop, fgets] at h
      cases j with
      | zero =>
        simp only [List.getElem?_cons_zero, Option.some.injEq] at h
        subst h
        exact ⟨rfl, _, rfl⟩
      | succ j =>
        simp only [List.getElem?_cons_succ] at h
        have := ih (i + 1) _ j c h
        rw [show i + 1 + j = i + (j + 1) by omega] at this
        exact this

theorem scale_pos {min_logl max_logl : ℚ} (h : min_logl < max_logl) :
    0 < scale min_logl max_logl := by
  unfold scale
  have : 0 < max_logl - min_logl := sub_pos.2 h
  positivity

/-- Bounds of the y coordinate of a log-likelihood between the minimum and
the maximum. -/
theorem out_svg_y_bounds {min_logl max_logl logl : ℚ} (h : min_logl < max_logl)
    (h1 : min_logl ≤ logl) (h2 : logl ≤ max_logl) :
    (10 : ℚ) + 350 / 11 ≤ out_svg_y min_logl max_logl logl ∧
      out_svg_y min_logl max_logl logl ≤ 360 := by
  have hs := scale_pos h
  have ht0 : 0 ≤ (logl - min_logl) / scale min_logl max_logl :=
    div_nonneg (sub_nonneg.2 h1) hs.le
  have ht1 : (logl - min_logl) / scale min_logl max_logl ≤ 10 / 11 := by
    rw [div_le_iff₀ hs]
    unfold scale
    linarith
  simp only [out_svg_y, canvas_y1, canvas_y2]
  push_cast
  constructor <;> linarith

/-- The x coordinate of counter `i` lies on the canvas when the step
`i * opt_bayes_sample` lies in the sampled range. -/
theorem out_svg_x_bounds (o : Options) (i : Int)
    (hi : 0 ≤ i * o.opt_bayes_sample)
    (hlt : i * o.opt_bayes_sample < o.opt_bayes_runs - o.opt_bayes_burnin) :
    (130 : ℚ) ≤ out_svg_x o i ∧ out_svg_x o i < 730 := by
  have hd : (0 : ℚ) < ((o.opt_bayes_runs - o.opt_bayes_burnin : Int) : ℚ) := by
    exact_mod_cast lt_of_le_of_lt hi hlt
  have hn : (0 : ℚ) ≤ ((i * o.opt_bayes_sample : Int) : ℚ) := by exact_mod_cast hi
  have hq0 : 0 ≤ ((i * o.opt_bayes_sample : Int) : ℚ) /
      ((o.opt_bayes_runs - o.opt_bayes_burnin : Int) : ℚ) := div_nonneg hn hd.le
  have hq1 : ((i * o.opt_bayes_sample : Int) : ℚ) /
      ((o.opt_bayes_runs - o.opt_bayes_burnin : Int) : ℚ) < 1 := by
    rw [div_lt_one hd]
    exact_mod_cast hlt
  simp only [out_svg_x, canvas_x1, canvas_x2]
  constructor
  · have : (0 : ℚ) ≤ (((730 : Int) - 130 : Int) : ℚ) := by norm_num
    have := mul_nonneg hq0 this
    push_cast at this ⊢
    linarith
  · push_cast at hq1 ⊢
    linarith

/-- On a file whose rows fit the line buffer, the point at position `i` is
the body of the loop of `out_svg` run at counter `i` on the row at position
`i`. -/
theorem out_svg_point_of_row (o : Options) (sscanf : List Char → ℚ × Int)
    (min_logl max_logl : ℚ) (fp : List Char)
    (hfit : ∀ r ∈ rows fp, r.length < LINEALLOC) (i : Nat) :
    (out_svg o sscanf min_logl max_logl fp)[i]? =
      ((rows fp)[i]?).map (out_svg_point o sscanf min_logl max_logl i) := by
  rw [out_svg_eq_rows o sscanf min_logl max_logl fp hfit, List.getElem?_map,
    List.getElem?_enumFrom]
  cases (rows fp)[i]? <;> simp

/-- C6: the minimum and maximum recorded log-likelihood bound the plot. For
`min_logl < max_logl`, every value `logl` with `min_logl ≤ logl ≤ max_logl`
gets a y coordinate with `canvas_y1 < y ≤ canvas_y2`. On a trace (rows
shorter than the line buffer) the row at position `i` is printed as the point
at position `i`, whose y coordinate is that of the log-likelihood read from
this very row, so it lies in that range when the value does; and when the
values of all rows lie between the minimum and the maximum, so do all the
points printed. The minimum is drawn at `y = 360` and the maximum at
`y = 10 + 350/11`. -/
theorem out_svg_y_on_canvas (o : Options) (sscanf : List Char → ℚ × Int)
    (min_logl max_logl : ℚ) (fp : List Char) (h : min_logl < max_logl) :
    (∀ logl, min_logl ≤ logl → logl ≤ max_logl →
        (canvas_y1 : ℚ) < out_svg_y min_logl max_logl logl ∧
          out_svg_y min_logl max_logl logl ≤ (canvas_y2 : ℚ)) ∧
      ((∀ r ∈ rows fp, r.length < LINEALLOC) →
        ∀ (i : Nat) (row : List Char), (rows fp)[i]? = some row →
          ∃ c : Circle, (out_svg o sscanf min_logl max_logl fp)[i]? = some c ∧
            c.cy = out_svg_y min_logl max_logl (sscanf row).1 ∧
            (min_logl ≤ (sscanf row).1 → (sscanf row).1 ≤ max_logl →
              (canvas_y1 : ℚ) < c.cy ∧ c.cy ≤ (canvas_y2 : ℚ))) ∧
      ((∀ r ∈ rows fp, r.length < LINEALLOC) →
        (∀ r ∈ rows fp, min_logl ≤ (sscanf r).1 ∧ (sscanf r).1 ≤ max_logl) →
          (out_svg o sscanf min_logl max_logl fp).length = (rows fp).length ∧
            ∀ c ∈ out_svg o sscanf min_logl max_logl fp,
              (canvas_y1 : ℚ) < c.cy ∧ c.cy ≤ (canvas_y2 : ℚ)) ∧
      out_svg_y min_logl max_logl min_logl = 360 ∧
      out_svg_y min_logl max_logl max_logl = 10 + 350 / 11 := by
  have key : ∀ logl, min_logl ≤ logl → logl ≤ max_logl →
      (canvas_y1 : ℚ) < out_svg_y min_logl max_logl logl ∧
        out_svg_y min_logl max_logl logl ≤ (canvas_y2 : ℚ) := by
    intro logl h1 h2
    obtain ⟨hlo, hhi⟩ := out_svg_y_bounds h h1 h2
    simp only [canvas_y1, canvas_y2]
    push_cast
    constructor <;> linarith
  refine ⟨key, ?_, ?_, ?_, ?_⟩
  · intro hfit i row hrow
    refine ⟨out_svg_point o sscanf min_logl max_logl i row, ?_, rfl, fun h1 h2 => ?_⟩
    · rw [out_svg_point_of_row o sscanf min_logl max_logl fp hfit i, hrow]
      rfl
    · exact key _ h1 h2
  · intro hfit hin
    refine ⟨?_, ?_⟩
    · rw [out_svg_eq_rows o sscanf min_logl max_logl fp hfit]
      simp
    · intro c hc
      obtain ⟨j, hj⟩ := List.getElem?_of_mem hc
      rw [out_svg_point_of_row o sscanf min_logl max_logl fp hfit j] at hj
      cases hrow : (rows fp)[j]? with
      | none => rw [hrow] at hj; exact Option.noConfusion hj
      | some row =>
        rw [hrow] at hj
        have hc' : c = out_svg_point o sscanf min_logl max_logl j row :=
          (Option.some.inj hj).symm
        have hmem : row ∈ rows fp := List.getElem?_mem hrow
        rw [hc']
        exact key _ (hin row hmem).1 (hin row hmem).2
  · simp [out_svg_y, canvas_y1, canvas_y2]
    norm_num
  · have hne : max_logl - min_logl ≠ 0 := (sub_pos.2 h).ne'
    simp only [out_svg_y, scale, canvas_y1, canvas_y2]
    field_simp
    ring

/-- Instance of `out_svg_y_on_canvas`: the three-row trace, whose
log-likelihoods -7.25, -9.5 and -12 lie between -12 and -7; three points are
printed, all on the canvas. -/
theorem out_svg_y_on_canvas_witness :
    ((-12 : ℚ) < -7) ∧ (∀ r ∈ rows trace_example, r.length < LINEALLOC) ∧
      (∀ r ∈ rows trace_example,
        (-12 : ℚ) ≤ (sscanf_example r).1 ∧ (sscanf_example r).1 ≤ -7) ∧
      (out_svg ⟨10, 1100, 100⟩ sscanf_example (-12) (-7) trace_example).length =
        (rows trace_example).length ∧
      ∀ c ∈ out_svg ⟨10, 1100, 100⟩ sscanf_example (-12) (-7) trace_example,
        (canvas_y1 : ℚ) < c.cy ∧ c.cy ≤ (canvas_y2 : ℚ) := by
  have hfit : ∀ r ∈ rows trace_example, r.length < LINEALLOC := by decide
  have hin : ∀ r ∈ rows trace_example,
      (-12 : ℚ) ≤ (sscanf_example r).1 ∧ (sscanf_example r).1 ≤ -7 := by
    have hrows : rows trace_example =
        ["-7.25,3\n".toList, "-9.5,2\n".toList, "-12.0,1\n".toList] := by decide
    intro r hr
    rw [hrows] at hr
    simp only [List.mem_cons, List.mem_singleton, List.not_mem_nil, or_false] at hr
    rcases hr with rfl | rfl | rfl
    · rw [show sscanf_example "-7.25,3\n".toList = (-29 / 4, 3) by
        rw [sscanf_example, if_pos rfl]]
      norm_num
    · rw [show sscanf_example "-9.5,2\n".toList = (-19 / 2, 2) by
        rw [sscanf_example, if_neg (by decide), if_pos rfl]]
      norm_num
    · rw [show sscanf_example "-12.0,1\n".toList = (-12, 1) by
        rw [sscanf_example, if_neg (by decide), if_neg (by decide), if_pos rfl]]
      norm_num
  exact ⟨by norm_num, hfit, hin,
    (out_svg_y_on_canvas ⟨10, 1100, 100⟩ sscanf_example (-12) (-7) trace_example
      (by norm_num)).2.2.1 hfit hin⟩

/-- C7: `out_svg` prints exactly one point per row of the trace file, in
row order, the row at position `i` being plotted with counter `i`; so there
are as many points as rows, and for `opt_bayes_sample > 0` and
`opt_bayes_runs > opt_bayes_burnin` the x coordinates increase strictly along
the rows. The file is a trace: each row, a log-likelihood and a species count,
is shorter than the line buffer of `LINEALLOC` characters that `fgets` fills
(a longer line would be read in several pieces). -/
theorem out_svg_one_point_per_row (o : Options) (sscanf : List Char → ℚ × Int)
    (min_logl max_logl : ℚ) (fp : List Char)
    (hfit : ∀ r ∈ rows fp, r.length < LINEALLOC) :
    (out_svg o sscanf min_logl max_logl fp).length = (rows fp).length ∧
      (∀ i : Nat, (out_svg o sscanf min_logl max_logl fp)[i]? =
        ((rows fp)[i]?).map (out_svg_point o sscanf min_logl max_logl i)) ∧
      (0 < o.opt_bayes_sample → o.opt_bayes_burnin < o.opt_bayes_runs →
        List.Pairwise (fun a b => a < b)
          ((out_svg o sscanf min_logl max_logl fp).map Circle.cx)) := by
  have hen : ∀ i : Nat, (out_svg o sscanf min_logl max_logl fp)[i]? =
      ((rows fp)[i]?).map (out_svg_point o sscanf min_logl max_logl i) := by
    intro i
    rw [out_svg_eq_rows o sscanf min_logl max_logl fp hfit, List.getElem?_map,
      List.getElem?_enumFrom]
    cases (rows fp)[i]? <;> simp
  refine ⟨?_, hen, ?_⟩
  · rw [out_svg_eq_rows o sscanf min_logl max_logl fp hfit]
    simp
  · intro hs hlt
    rw [List.pairwise_iff_getElem]
    intro i j hi hj hij
    simp only [List.getElem_map]
    have hi' : i < (out_svg o sscanf min_logl max_logl fp).length := by simpa using hi
    have hj' : j < (out_svg o sscanf min_logl max_logl fp).length := by simpa using hj
    have ei := (out_svg_loop_cx o sscanf min_logl max_logl _ _ _ i _
      (List.getElem?_eq_getElem hi')).1
    have ej := (out_svg_loop_cx o sscanf min_logl max_logl _ _ _ j _
      (List.getElem?_eq_getElem hj')).1
    rw [ei, ej]
    have hd : (0 : ℚ) < ((o.opt_bayes_runs - o.opt_bayes_burnin : Int) : ℚ) := by
      exact_mod_cast sub_pos.2 hlt
    have hnum : (((0 + i : Nat) : Int) * o.opt_bayes_sample : Int) <
        (((0 + j : Nat) : Int) * o.opt_bayes_sample : Int) := by
      have : ((0 + i : Nat) : Int) < ((0 + j : Nat) : Int) := by omega
      exact mul_lt_mul_of_pos_right this hs
    have hq : ((((0 + i : Nat) : Int) * o.opt_bayes_sample : Int) : ℚ) /
        ((o.opt_bayes_runs - o.opt_bayes_burnin : Int) : ℚ) <
        ((((0 + j : Nat) : Int) * o.opt_bayes_sample : Int) : ℚ) /
        ((o.opt_bayes_runs - o.opt_bayes_burnin : Int) : ℚ) :=
      div_lt_div_of_pos_right (by exact_mod_cast hnum) hd
    simp only [out_svg_x, canvas_x1, canvas_x2]
    have h600 : (0 : ℚ) < (((730 : Int) - 130 : Int) : ℚ) := by norm_num
    have := mul_lt_mul_of_pos_right hq h600
    linarith

/-- Instance of `out_svg_one_point_per_row`: a trace of three rows gives
three points. -/
theorem out_svg_one_point_per_row_witness :
    (∀ r ∈ rows trace_example, r.length < LINEALLOC) ∧
      (out_svg ⟨10, 1100, 100⟩ (fun _ => (-9, 2)) (-12) (-7) trace_example).length =
        (rows trace_example).length :=
  ⟨by decide,
    (out_svg_one_point_per_row ⟨10, 1100, 100⟩ (fun _ => (-9, 2)) (-12) (-7)
      trace_example (by decide)).1⟩

/-- C8: for burn-in `B`, total steps `R`, sample interval `s > 0` and a trace
of `n` rows (each shorter than the line buffer) with `n*s ≤ R - B`, so that
`B < R` as soon as there is a row, every point printed by `out_svg` has
`x = canvas_x1 + (i*s/(R-B)) * (canvas_x2 - canvas_x1)` with `130 ≤ x < 730`;
with `B = 100`, `R = 1100`, `s = 10` and 100 rows the points are at
`x = 130 + 6*i` for `i = 0..99`. -/
theorem out_svg_x_on_canvas (o : Options) (sscanf : List Char → ℚ × Int)
    (min_logl max_logl : ℚ) (fp : List Char)
    (hfit : ∀ r ∈ rows fp, r.length < LINEALLOC)
    (hs : 0 < o.opt_bayes_sample)
    (hn : ((rows fp).length : Int) * o.opt_bayes_sample ≤
      o.opt_bayes_runs - o.opt_bayes_burnin) :
    (∀ (i : Nat) (c : Circle), (out_svg o sscanf min_logl max_logl fp)[i]? = some c →
        c.cx = (canvas_x1 : ℚ) +
            ((i : ℚ) * (o.opt_bayes_sample : ℚ) /
              ((o.opt_bayes_runs : ℚ) - (o.opt_bayes_burnin : ℚ))) *
              ((canvas_x2 : ℚ) - (canvas_x1 : ℚ)) ∧
          130 ≤ c.cx ∧ c.cx < 730) ∧
      (o = ⟨10, 1100, 100⟩ → (rows fp).length = 100 →
        (out_svg o sscanf min_logl max_logl fp).map Circle.cx =
          (List.range 100).map fun i : Nat => (130 : ℚ) + 6 * (i : ℚ)) := by
  have hlen : (out_svg o sscanf min_logl max_logl fp).length = (rows fp).length := by
    rw [out_svg_eq_rows o sscanf min_logl max_logl fp hfit]
    simp
  have hpt : ∀ (i : Nat) (c : Circle),
      (out_svg o sscanf min_logl max_logl fp)[i]? = some c →
        c.cx = out_svg_x o (i : Int) ∧ i < (rows fp).length := by
    intro i c hc
    have h1 := (out_svg_loop_cx o sscanf min_logl max_logl _ _ _ i c hc).1
    rw [Nat.zero_add] at h1
    have h2 : i < (out_svg o sscanf min_logl max_logl fp).length := by
      by_contra hcon
      rw [List.getElem?_eq_none (Nat.le_of_not_lt hcon)] at hc
      exact Option.noConfusion hc
    exact ⟨h1, hlen ▸ h2⟩
  constructor
  · intro i c hc
    obtain ⟨hx, hi⟩ := hpt i c hc
    have h0 : 0 ≤ (i : Int) * o.opt_bayes_sample :=
      mul_nonneg (Int.ofNat_nonneg i) hs.le
    have h1 : (i : Int) * o.opt_bayes_sample <
        o.opt_bayes_runs - o.opt_bayes_burnin := by
      have : (i : Int) + 1 ≤ ((rows fp).length : Int) := by omega
      have := mul_le_mul_of_nonneg_right this hs.le
      linarith
    obtain ⟨hlo, hhi⟩ := out_svg_x_bounds o (i : Int) h0 h1
    rw [hx]
    refine ⟨?_, hlo, hhi⟩
    simp only [out_svg_x]
    push_cast
    ring
  · intro ho hrows
    apply List.ext_getElem?
    intro i
    rw [List.getElem?_map, List.getElem?_map]
    by_cases hi : i < 100
    · have hi' : i < (out_svg o sscanf min_logl max_logl fp).length := by
        rw [hlen, hrows]; exact hi
      rw [List.getElem?_eq_getElem hi', List.getElem?_range hi]
      simp only [Option.map_some']
      rw [(hpt i _ (List.getElem?_eq_getElem hi')).1, ho]
      simp only [out_svg_x, canvas_x1, canvas_x2]
      push_cast
      congr 1
      ring
    · have hi' : (out_svg o sscanf min_logl max_logl fp).length ≤ i := by
        rw [hlen, hrows]; omega
      rw [List.getElem?_eq_none hi', List.getElem?_eq_none (by simpa using hi)]
      rfl

/-- Instance of `out_svg_x_on_canvas`: a trace of 100 rows under burn-in 100,
1100 steps and sample interval 10; the points are at 130, 136, ..., 724. -/
theorem out_svg_x_on_canvas_witness :
    (∀ r ∈ rows trace_hundred, r.length < LINEALLOC) ∧ (0 : Int) < 10 ∧
      ((rows trace_hundred).length : Int) * 10 ≤ 1100 - 100 ∧
      (out_svg ⟨10, 1100, 100⟩ (fun _ => (-9, 2)) (-12) (-7) trace_hundred).map Circle.cx =
        (List.range 100).map fun i : Nat => (130 : ℚ) + 6 * (i : ℚ) := by
  have hrows : (∀ r ∈ rows trace_hundred, r.length < LINEALLOC) ∧
      (rows trace_hundred).length = 100 := by
    set_option maxRecDepth 100000 in decide
  have hn : ((rows trace_hundred).length : Int) * 10 ≤ 1100 - 100 := by
    rw [hrows.2]; decide
  exact ⟨hrows.1, by decide, hn,
    (out_svg_x_on_canvas ⟨10, 1100, 100⟩ (fun _ => (-9, 2)) (-12) (-7) trace_hundred
      hrows.1 (by decide) hn).2 rfl hrows.2⟩

theorem double_div_isSome (a b : ℚ) : (double_div a b).isSome ↔ b ≠ 0 := by
  unfold double_div
  split_ifs with h <;> simp [h]

theorem scale_eq_zero_iff (min_logl max_logl : ℚ) :
    scale min_logl max_logl = 0 ↔ max_logl = min_logl := by
  unfold scale
  constructor
  · intro h
    rcases mul_eq_zero.1 h with h | h
    · linarith
    · norm_num at h
  · intro h
    rw [h]
    ring

theorem out_svg_x_divisor_eq_zero_iff (o : Options) :
    out_svg_x_divisor o = 0 ↔ o.opt_bayes_runs = o.opt_bayes_burnin := by
  unfold out_svg_x_divisor
  rw [Int.cast_eq_zero, sub_eq_zero]

/-- Where the division of the x coordinate is defined, the tracked value is
the value of `out_svg_x`. -/
theorem out_svg_x_checked_eq (o : Options) (i : Int)
    (h : o.opt_bayes_runs ≠ o.opt_bayes_burnin) :
    out_svg_x_checked o i = some (out_svg_x o i) := by
  have hd : out_svg_x_divisor o ≠ 0 := fun h0 => h ((out_svg_x_divisor_eq_zero_iff o).1 h0)
  unfold out_svg_x_checked double_div
  rw [if_neg hd]
  rfl

/-- Where the division of the y coordinate is defined, the tracked value is
the value of `out_svg_y`. -/
theorem out_svg_y_checked_eq (min_logl max_logl logl : ℚ) (h : max_logl ≠ min_logl) :
    out_svg_y_checked min_logl max_logl logl = some (out_svg_y min_logl max_logl logl) := by
  have hd : scale min_logl max_logl ≠ 0 := fun h0 => h ((scale_eq_zero_iff _ _).1 h0)
  unfold out_svg_y_checked double_div
  rw [if_neg hd]
  rfl

/-- Tracking the divisions does not change which points are printed. -/
theorem out_svg_loop_checked_length (o : Options) (sscanf : List Char → ℚ × Int)
    (min_logl max_logl : ℚ) :
    ∀ (fuel i : Nat) (fp : List Char),
      (out_svg_loop_checked o sscanf min_logl max_logl fuel i fp).length =
        (out_svg_loop o sscanf min_logl max_logl fuel i fp).length := by
  intro fuel
  induction fuel with
  | zero => intro i fp; rfl
  | succ fuel ih =>
    intro i fp
    cases fp with
    | nil => rfl
    | cons a s =>
      simp only [out_svg_loop_checked, out_svg_loop, fgets, List.length_cons, ih]

/-- Every point of the tracked loop carries the tracked x of its counter and
the tracked y of the value read from some line. -/
theorem out_svg_loop_checked_coords (o : Options) (sscanf : List Char → ℚ × Int)
    (min_logl max_logl : ℚ) :
    ∀ (fuel i : Nat) (fp : List Char) (j : Nat) (p : CheckedCircle),
      (out_svg_loop_checked o sscanf min_logl max_logl fuel i fp)[j]? = some p →
        p.cx = out_svg_x_checked o ((i + j : Nat) : Int) ∧
          ∃ line, p.cy = out_svg_y_checked min_logl max_logl (sscanf line).1 := by
  intro fuel
  induction fuel with
  | zero => intro i fp j p h; simp [out_svg_loop_checked] at h
  | succ fuel ih =>
    intro i fp j p h
    cases fp with
    | nil => simp [out_svg_loop_checked, fgets] at h
    | cons a s =>
      simp only [out_svg_loop_checked, fgets] at h
      cases j with
      | zero =>
        simp only [List.getElem?_cons_zero, Option.some.injEq] at h
        subst h
        exact ⟨rfl, _, rfl⟩
      | succ j =>
        simp only [List.getElem?_cons_succ] at h
        have := ih (i + 1) _ j p h
        rw [show i + 1 + j = i + (j + 1) by omega] at this
        exact this

/-- With both divisors non-zero the tracked loop prints the points of the
loop of `out_svg`. -/
theorem out_svg_loop_checked_eq (o : Options) (sscanf : List Char → ℚ × Int)
    (min_logl max_logl : ℚ) (hx : o.opt_bayes_runs ≠ o.opt_bayes_burnin)
    (hy : max_logl ≠ min_logl) :
    ∀ (fuel i : Nat) (fp : List Char),
      out_svg_loop_checked o sscanf min_logl max_logl fuel i fp =
        (out_svg_loop o sscanf min_logl max_logl fuel i fp).map Circle.checked := by
  intro fuel
  induction fuel with
  | zero => intro i fp; rfl
  | succ fuel ih =>
    intro i fp
    cases fp with
    | nil => rfl
    | cons a s =>
      simp only [out_svg_loop_checked, out_svg_loop, fgets, List.map_cons, ih]
      congr 1
      simp [out_svg_point_checked, out_svg_point, Circle.checked,
        out_svg_x_checked_eq o _ hx, out_svg_y_checked_eq _ _ _ hy]

/-- A non-empty file makes the loop of `out_svg` print a point. -/
theorem out_svg_checked_ne_nil (o : Options) (sscanf : List Char → ℚ × Int)
    (min_logl max_logl : ℚ) (fp : List Char) (h : fp ≠ []) :
    out_svg_checked o sscanf min_logl max_logl fp ≠ [] := by
  cases fp with
  | nil => exact absurd rfl h
  | cons a s => simp [out_svg_checked, out_svg_loop_checked, fgets]

/-- C11: the two divisions of `out_svg` are defined exactly when
`opt_bayes_runs ≠ opt_bayes_burnin` (x coordinate) and `max_logl ≠ min_logl`
(y coordinate). When `runs > burnin` and `max_logl > min_logl` both divisors,
`runs - burnin` and `scale = 1.1*(max_logl - min_logl)`, are strictly
positive and the points are those of `out_svg`. When all recorded
log-likelihoods are equal (`min_logl = max_logl`), `scale` is 0 and the y
coordinate of every row is a division by zero; likewise the x coordinate of
every row when `runs = burnin`. The code has no guard for either case: the
loop prints a point for every line it reads whatever the divisors are, and
`svg_landscape` hands its two arguments to `out_svg` as they are. -/
theorem out_svg_divisions_defined (o : Options) (sscanf : List Char → ℚ × Int)
    (min_logl max_logl : ℚ) (fp : List Char) :
    (∀ i : Int, (out_svg_x_checked o i).isSome ↔ o.opt_bayes_runs ≠ o.opt_bayes_burnin) ∧
      (∀ logl : ℚ, (out_svg_y_checked min_logl max_logl logl).isSome ↔
        max_logl ≠ min_logl) ∧
      (o.opt_bayes_burnin < o.opt_bayes_runs → min_logl < max_logl →
        0 < out_svg_x_divisor o ∧ 0 < scale min_logl max_logl) ∧
      (o.opt_bayes_runs ≠ o.opt_bayes_burnin → max_logl ≠ min_logl →
        out_svg_checked o sscanf min_logl max_logl fp =
          (out_svg o sscanf min_logl max_logl fp).map Circle.checked) ∧
      (min_logl = max_logl → scale min_logl max_logl = 0 ∧
        (∀ p ∈ out_svg_checked o sscanf min_logl max_logl fp, p.cy = none) ∧
        (fp ≠ [] → out_svg_checked o sscanf min_logl max_logl fp ≠ [])) ∧
      (o.opt_bayes_runs = o.opt_bayes_burnin → out_svg_x_divisor o = 0 ∧
        (∀ p ∈ out_svg_checked o sscanf min_logl max_logl fp, p.cx = none) ∧
        (fp ≠ [] → out_svg_checked o sscanf min_logl max_logl fp ≠ [])) ∧
      (out_svg_checked o sscanf min_logl max_logl fp).length =
        (out_svg o sscanf min_logl max_logl fp).length ∧
      (svg_landscape o sscanf fp min_logl max_logl).points =
        out_svg_checked o sscanf min_logl max_logl fp := by
  have hxsome : ∀ i : Int, (out_svg_x_checked o i).isSome ↔
      o.opt_bayes_runs ≠ o.opt_bayes_burnin := by
    intro i
    unfold out_svg_x_checked
    rw [Option.isSome_map', double_div_isSome, Ne, out_svg_x_divisor_eq_zero_iff]
  have hysome : ∀ logl : ℚ, (out_svg_y_checked min_logl max_logl logl).isSome ↔
      max_logl ≠ min_logl := by
    intro logl
    unfold out_svg_y_checked
    rw [Option.isSome_map', double_div_isSome, Ne, scale_eq_zero_iff]
  refine ⟨hxsome, hysome, ?_, ?_, ?_, ?_, ?_, rfl⟩
  · intro hx hy
    refine ⟨?_, scale_pos hy⟩
    unfold out_svg_x_divisor
    exact_mod_cast sub_pos.2 hx
  · intro hx hy
    exact out_svg_loop_checked_eq o sscanf min_logl max_logl hx hy _ _ _
  · intro heq
    refine ⟨(scale_eq_zero_iff _ _).2 heq.symm, ?_,
      out_svg_checked_ne_nil o sscanf min_logl max_logl fp⟩
    intro p hp
    obtain ⟨j, hj⟩ := List.getElem?_of_mem hp
    obtain ⟨_, line, hline⟩ :=
      out_svg_loop_checked_coords o sscanf min_logl max_logl _ _ _ j p hj
    rw [hline]
    have := (hysome (sscanf line).1).not.2 (not_not.2 heq.symm)
    simpa using this
  · intro heq
    refine ⟨(out_svg_x_divisor_eq_zero_iff o).2 heq, ?_,
      out_svg_checked_ne_nil o sscanf min_logl max_logl fp⟩
    intro p hp
    obtain ⟨j, hj⟩ := List.getElem?_of_mem hp
    obtain ⟨hcx, _⟩ :=
      out_svg_loop_checked_coords o sscanf min_logl max_logl _ _ _ j p hj
    rw [hcx]
    have := (hxsome ((0 + j : Nat) : Int)).not.2 (not_not.2 heq)
    simpa using this
  · exact out_svg_loop_checked_length o sscanf min_logl max_logl _ _ _

/-- Instance of `out_svg_divisions_defined`: the three-row trace with every
log-likelihood equal to -7; points are printed and none has a y coordinate. -/
theorem out_svg_divisions_defined_witness :
    ((-7 : ℚ) = -7) ∧ trace_example ≠ [] ∧
      scale (-7) (-7) = 0 ∧
      (∀ p ∈ out_svg_checked ⟨10, 1100, 100⟩ (fun _ => (-7, 2)) (-7) (-7) trace_example,
        p.cy = none) ∧
      out_svg_checked ⟨10, 1100, 100⟩ (fun _ => (-7, 2)) (-7) (-7) trace_example ≠ [] :=
  ⟨rfl, by decide,
    ((out_svg_divisions_defined ⟨10, 1100, 100⟩ (fun _ => (-7, 2)) (-7) (-7)
      trace_example).2.2.2.2.1 rfl).1,
    ((out_svg_divisions_defined ⟨10, 1100, 100⟩ (fun _ => (-7, 2)) (-7) (-7)
      trace_example).2.2.2.2.1 rfl).2.1,
    ((out_svg_divisions_defined ⟨10, 1100, 100⟩ (fun _ => (-7, 2)) (-7) (-7)
      trace_example).2.2.2.2.1 rfl).2.2 (by decide)⟩

end Mptp
